import Mathlib

/-!
Shallow embedding of the subprocess-pipeline orchestrator of `cargo-expand`
(`src/main.rs`) and proofs about it.

Command-line tokens (`OsString` in the source) are modelled as `String`;
argument vectors as `List String`; terminal attachment of the standard
streams (`stderr_isatty()`, `stdout_isatty()`) as explicit `Bool`
parameters; fallible process interaction as `Except`/`Option` values.
-/

/-- The Rust method `str::starts_with` on our `String` model: the
characters of the pattern are a prefix of the characters of the subject. -/
def starts_with (s pat : String) : Bool :=
  pat.toList.isPrefixOf s.toList

/-- The Rust method `str::contains` on our `String` model: the characters
of the pattern occur contiguously somewhere in the subject. -/
def contains_str (s pat : String) : Bool :=
  containsSeq pat.toList s.toList
where
  containsSeq (needle : List Char) : List Char → Bool
    | [] => needle.isEmpty
    | c :: rest => needle.isPrefixOf (c :: rest) || containsSeq needle rest

/-- The Rust method `str::trim` on our `String` model: remove leading and
trailing whitespace characters. -/
def trim_chars (s : String) : List Char :=
  ((s.toList.dropWhile Char.isWhitespace).reverse.dropWhile
    Char.isWhitespace).reverse

/-- `line.trim().is_empty()` (`src/main.rs` line 324). -/
def trim_is_empty (s : String) : Bool :=
  (trim_chars s).isEmpty

/-- Loop state of the copying loop inside `wrap_args` (`src/main.rs`,
lines 217-231): the accumulated argument vector and the three tracked
flags `ends_with_test`, `ends_with_example`, `has_color`. -/
structure WrapState where
  args : List String
  ends_with_test : Bool
  ends_with_example : Bool
  has_color : Bool
deriving Repr, DecidableEq

/-- The `for arg in &mut it` loop of `wrap_args` (`src/main.rs`,
lines 223-231): copy tokens until a literal `--`, updating the flag
state; returns the final state together with the tokens remaining in
the iterator after the `--` (empty when no `--` occurred). -/
def wrapLoop (s : WrapState) : List String → WrapState × List String
  | [] => (s, [])
  | arg :: rest =>
    if arg = "--" then (s, rest)
    else
      wrapLoop
        { args := s.args ++ [arg],
          ends_with_test := arg == "--test",
          ends_with_example := arg == "--example",
          has_color := s.has_color || starts_with arg "--color" }
        rest

/-- `wrap_args` (`src/main.rs`, lines 213-258).  `it` is the full
argument iterator handed to the function (`env::args_os()`, whose first
two entries - program name and the `expand` subcommand token - are
skipped), `outfile` the optional temporary output path, and
`stderr_isatty` the result of `stderr_isatty()` at line 244. -/
def wrap_args (it : List String) (outfile : Option String)
    (stderr_isatty : Bool) : List String :=
  let s0 : WrapState := ⟨["rustc"], false, false, false⟩
  let r := wrapLoop s0 (it.drop 2)
  let args := r.1.args
  let args := if r.1.ends_with_test then args ++ ["test"] else args
  let args := if r.1.ends_with_example then args ++ ["example"] else args
  let args :=
    if !r.1.has_color then
      args ++ [if stderr_isatty then "--color=always" else "--color=never"]
    else args
  let args := args ++ ["--"]
  let args :=
    match outfile with
    | some path => args ++ ["-o", path]
    | none => args
  args ++ ["-Zunstable-options", "--pretty=expanded"] ++ r.2

example :
    wrap_args ["cargo-expand", "expand"] none false
      = ["rustc", "--color=never", "--", "-Zunstable-options",
         "--pretty=expanded"] := by decide

example :
    wrap_args ["cargo-expand", "expand", "--test", "mytest"] none false
      = ["rustc", "--test", "mytest", "--color=never", "--",
         "-Zunstable-options", "--pretty=expanded"] := by decide

example :
    wrap_args ["cargo-expand", "expand", "--test"] none false
      = ["rustc", "--test", "test", "--color=never", "--",
         "-Zunstable-options", "--pretty=expanded"] := by decide

example :
    wrap_args ["cargo-expand", "expand", "--color=always", "--", "-v"]
        (some "/tmp/out") true
      = ["rustc", "--color=always", "--", "-o", "/tmp/out",
         "-Zunstable-options", "--pretty=expanded", "-v"] := by decide

/-- `color_never` (`src/main.rs`, lines 260-263): the user argument
vector explicitly selects "never", either as an adjacent `--color never`
pair (`args.windows(2)`, modelled by zipping with the tail) or as a
single `--color=never` token. -/
def color_never (args : List String) : Bool :=
  (args.zip args.tail).any (fun pair => pair.1 == "--color" && pair.2 == "never")
    || args.any (fun arg => arg == "--color=never")

/-- The guard on the pygmentize capability probe (`src/main.rs`,
line 96): `!color_never(&args) && stdout_isatty()`. -/
def which_pygmentize_attempted (args : List String) (stdout_isatty : Bool) :
    Bool :=
  !color_never args && stdout_isatty

/-- The re-exec decision of `cargo_expand_or_run_nightly` (`src/main.rs`,
lines 27-48): the function returns early into `cargo_expand()` (no
re-exec) when `maybe_nightly || env::var_os(NO_RUN_NIGHTLY).is_some()`,
where `maybe_nightly = !definitely_not_nightly()`; otherwise it re-execs
through `cargo +nightly expand`.  `true` means the re-exec is performed. -/
def cargo_expand_or_run_nightly_reexecs (definitely_not : Bool)
    (no_run_nightly_set : Bool) : Bool :=
  let maybe_nightly := !definitely_not
  if maybe_nightly || no_run_nightly_set then false else true

/-- `definitely_not_nightly` (`src/main.rs`, lines 51-66).  The outcome
of the `cargo --version` query is modelled as `none` when `cmd.output()`
fails, `some none` when the captured stdout is not valid UTF-8, and
`some (some version)` when a version string was decoded. -/
def definitely_not_nightly (output : Option (Option String)) : Bool :=
  match output with
  | none => false
  | some none => false
  | some (some version) =>
    starts_with version "cargo 1" && !contains_str version "nightly"

/-- `run` (`src/main.rs`, lines 154-156): `cmd.status()` is modelled by
its outcome, `Except.error` for an I/O failure and `Except.ok code` for
a terminated process whose `ExitStatus::code()` returned `code` (`none`
when the process terminated without a reportable exit code).  The source
maps the status through `status.code().unwrap_or(1)`. -/
def run (status : Except Unit (Option Int)) : Except Unit Int :=
  status.map (fun code => code.getD 1)

/-- The exit-code dispatch in `main` (`src/main.rs`, lines 16-25):
`Ok(code)` exits with `code`, `Err(err)` prints the error and exits
with 1. -/
def main_exit (result : Except Unit Int) : Int :=
  match result with
  | Except.ok code => code
  | Except.error _ => 1

/-- The `blacklist` of benign cargo advisory substrings inside
`ignore_cargo_err` (`src/main.rs`, lines 328-336). -/
def blacklist : List String :=
  ["ignoring specified output filename because multiple outputs were requested",
   "ignoring specified output filename for \x27link\x27 output because multiple outputs were requested",
   "ignoring --out-dir flag due to -o flag.",
   "due to multiple output types requested, the explicitly specified output file name will be adapted for each output type"]

/-- `ignore_cargo_err` (`src/main.rs`, lines 322-344): ignore the line
when it is blank after trimming, or when it contains one of the
blacklisted advisory substrings; otherwise do not ignore it. -/
def ignore_cargo_err (line : String) : Bool :=
  if trim_is_empty line then true
  else if blacklist.any (fun s => contains_str line s) then true
  else false

/-- `ignore_rustfmt_err` (`src/main.rs`, lines 317-320). -/
def ignore_rustfmt_err (_line : String) : Bool :=
  true

/-- `filter_err` (`src/main.rs`, lines 302-315).  The reads from stdin
are modelled as a list of `read_line` outcomes: `Except.error ()` for an
I/O failure, `Except.ok line` for a successful read (`line` empty iff
`read_line` returned `Ok(0)`, i.e. end of stream).  The result is the
list of lines forwarded to stderr together with the process exit code.
The `while let Ok(n)` loop stops at the first failed read, at a read of
zero bytes, and (in the model) when the outcome list is exhausted; in
every case the process exits with code 0. -/
def filter_err (ignore : String → Bool) :
    List (Except Unit String) → List String × Nat
  | [] => ([], 0)
  | Except.error _ :: _ => ([], 0)
  | Except.ok line :: rest =>
    if line.isEmpty then ([], 0)
    else
      let r := filter_err ignore rest
      (if ignore line then r.1 else line :: r.1, r.2)

example : color_never ["--color", "never"] = true := by decide
example : color_never ["--color=never"] = true := by decide
example : color_never ["--color=always"] = false := by decide
example : ignore_cargo_err "  \t " = true := by decide
example : ignore_cargo_err "error[E0432]: unresolved import" = false := by decide
example :
    ignore_cargo_err
      "warning: ignoring --out-dir flag due to -o flag." = true := by decide
example :
    filter_err (fun _ => false)
      [Except.ok "a\n", Except.error (), Except.ok "b\n"] = (["a\n"], 0) := by
  decide

/-- Specification-side view of the `ends_with_test` / `ends_with_example`
tracking of `wrapLoop`: the flag after the loop holds exactly when the
last copied token equals `t` (and keeps its initial value when nothing
was copied). -/
def last_token_is (copied : List String) (dflt : Bool) (t : String) : Bool :=
  match copied with
  | [] => dflt
  | a :: rest => last_token_is rest (a == t) t

theorem last_token_is_cons (a : String) (l : List String) (dflt : Bool)
    (t : String) :
    last_token_is (a :: l) dflt t = last_token_is l (a == t) t := rfl

/-- `last_token_is` ignores its default once the list is nonempty: it
reports whether the last element equals `t`. -/
theorem last_token_is_of_getLast? (l : List String) (dflt : Bool)
    (t a : String) (h : l.getLast? = some a) :
    last_token_is l dflt t = (a == t) := by
  induction l generalizing dflt with
  | nil => simp at h
  | cons b m ih =>
    cases m with
    | nil =>
      simp only [List.getLast?_singleton, Option.some.injEq] at h
      subst h
      rfl
    | cons c k =>
      rw [List.getLast?_cons_cons] at h
      rw [last_token_is_cons]
      exact ih (b == t) h

/-- The copying loop of `wrap_args`, characterized: it copies the
longest `--`-free prefix of its input, tracks the three flags as
described by `last_token_is` and `any`, and leaves exactly the tokens
after the first `--` in the iterator. -/
theorem wrapLoop_eq (l : List String) (s : WrapState) :
    wrapLoop s l =
      ({ args := s.args ++ l.takeWhile (fun a => a != "--"),
         ends_with_test :=
           last_token_is (l.takeWhile (fun a => a != "--"))
             s.ends_with_test "--test",
         ends_with_example :=
           last_token_is (l.takeWhile (fun a => a != "--"))
             s.ends_with_example "--example",
         has_color :=
           s.has_color
             || (l.takeWhile (fun a => a != "--")).any
                 (fun a => starts_with a "--color") },
       (l.dropWhile (fun a => a != "--")).drop 1) := by
  induction l generalizing s with
  | nil => simp [wrapLoop, last_token_is]
  | cons a l ih =>
    by_cases h : a = "--"
    · subst h
      simp [wrapLoop, List.takeWhile_cons, List.dropWhile_cons, last_token_is]
    · have hb : (a != "--") = true := by simp [bne_iff_ne, h]
      simp only [wrapLoop, if_neg h, ih, List.takeWhile_cons, hb, if_pos,
        List.dropWhile_cons, last_token_is_cons, List.any_cons]
      simp [List.append_assoc, Bool.or_assoc]

/-- `wrap_args`, fully characterized in terms of the longest `--`-free
prefix of the user tokens (after the two skipped leading tokens) and the
tokens after the first `--`. -/
theorem wrap_args_eq (it : List String) (outfile : Option String)
    (tty : Bool) :
    wrap_args it outfile tty =
      ("rustc" :: (it.drop 2).takeWhile (fun a => a != "--"))
        ++ (if last_token_is ((it.drop 2).takeWhile (fun a => a != "--"))
              false "--test"
            then ["test"] else [])
        ++ (if last_token_is ((it.drop 2).takeWhile (fun a => a != "--"))
              false "--example"
            then ["example"] else [])
        ++ (if ((it.drop 2).takeWhile (fun a => a != "--")).any
              (fun a => starts_with a "--color")
            then []
            else [if tty then "--color=always" else "--color=never"])
        ++ ["--"]
        ++ (match outfile with | some path => ["-o", path] | none => [])
        ++ ["-Zunstable-options", "--pretty=expanded"]
        ++ ((it.drop 2).dropWhile (fun a => a != "--")).drop 1 := by
  simp only [wrap_args, wrapLoop_eq]
  cases h1 : last_token_is ((it.drop 2).takeWhile (fun a => a != "--"))
      false "--test" <;>
    cases h2 : last_token_is ((it.drop 2).takeWhile (fun a => a != "--"))
        false "--example" <;>
      cases h3 : ((it.drop 2).takeWhile (fun a => a != "--")).any
          (fun a => starts_with a "--color") <;>
        cases outfile <;>
          simp [h1, h2, h3, List.append_assoc]

/-- Claim C1, counterexample.  The claim states that for the input
argument vector `["expand", "--test", "mytest"]` the synthesized list
contains the subsequence `--test mytest test` before the synthesized
`--`.  It does not: the token `test` never appears in the synthesized
list at all (for either terminal state of stderr), because the default
target name is injected only when the `--test` flag is the *last* copied
token, and here its explicit value `mytest` follows it. -/
theorem C1_counterexample_no_default_token :
    "test" ∉ wrap_args ["cargo-expand", "expand", "--test", "mytest"]
        none false
      ∧ "test" ∉ wrap_args ["cargo-expand", "expand", "--test", "mytest"]
        none true := by
  decide

/-- Claim C1, amended: for the input argument vector
`["expand", "--test", "mytest"]` the synthesizer injects no default test
target name; the user tokens `--test mytest` are copied verbatim and are
followed directly by the synthesized color flag and the `--` separator. -/
theorem C1_amended_explicit_value_no_injection :
    wrap_args ["cargo-expand", "expand", "--test", "mytest"] none false
      = ["rustc", "--test", "mytest", "--color=never", "--",
         "-Zunstable-options", "--pretty=expanded"]
      ∧ wrap_args ["cargo-expand", "expand", "--test", "mytest"] none true
      = ["rustc", "--test", "mytest", "--color=always", "--",
         "-Zunstable-options", "--pretty=expanded"] := by
  decide

/-- Claim C2, counterexample.  The claim states that for input
`["expand"]` with no output path and stderr not a terminal the
synthesized list ends with `-- -Zunstable-options --pretty=expanded
--color=never` in that order.  It does not: the color flag is pushed
*before* the `--` separator, so that four-token sequence is not a suffix
of the synthesized list. -/
theorem C2_counterexample_color_flag_precedes_separator :
    ¬ List.IsSuffix
        ["--", "-Zunstable-options", "--pretty=expanded", "--color=never"]
        (wrap_args ["cargo-expand", "expand"] none false) := by
  decide

/-- Claim C2, amended: for input `["expand"]` with no output-path
override and stderr not a terminal, the synthesized list ends with the
four tokens `--color=never -- -Zunstable-options --pretty=expanded` in
that order (the color flag precedes the synthesized `--`). -/
theorem C2_amended_tail_tokens :
    wrap_args ["cargo-expand", "expand"] none false
      = ["rustc", "--color=never", "--", "-Zunstable-options",
         "--pretty=expanded"]
      ∧ List.IsSuffix
        ["--color=never", "--", "-Zunstable-options", "--pretty=expanded"]
        (wrap_args ["cargo-expand", "expand"] none false) := by
  decide

/-- Claim C3, counterexample.  The claim states that re-exec happens
exactly when NOT (prober affirms definitely-not-nightly AND no override
set).  At prober = `false` (maybe nightly) and override unset, the
condition of the claim, `!(false && !false)`, evaluates to `true` (re-exec
predicted), but the orchestrator runs directly without re-exec. -/
theorem C3_counterexample_reexec_decision :
    cargo_expand_or_run_nightly_reexecs false false = false
      ∧ (!(false && !false)) = true := by
  decide

/-- Claim C3, amended: the re-exec through the nightly toolchain variant
is performed exactly when the prober affirms definitely-not-nightly AND
the forced-run override (CARGO_EXPAND_NO_RUN_NIGHTLY) is not set; in
every other combination the orchestrator runs directly. -/
theorem C3_amended_reexec_exactly_when_stable_and_no_override :
    ∀ definitely_not no_run_nightly_set : Bool,
      cargo_expand_or_run_nightly_reexecs definitely_not no_run_nightly_set
        = (definitely_not && !no_run_nightly_set) := by
  decide

/-- Claim C4, counterexample.  The claim states the pygmentize probe is
attempted iff stdout is a terminal and the color policy the synthesizer
would produce is not "never".  With user args `["expand"]` (no color
token), stdout a terminal and stderr not a terminal, the synthesizer
produces `--color=never`, yet the probe *is* attempted: the gate only
inspects the user-supplied tokens via `color_never`. -/
theorem C4_counterexample_probe_despite_never_policy :
    which_pygmentize_attempted ["cargo-expand", "expand"] true = true
      ∧ "--color=never" ∈ wrap_args ["cargo-expand", "expand"] none false := by
  decide

/-- Claim C4, amended: the pygmentize capability probe is attempted if
and only if standard output is attached to a terminal and the
user-supplied argument vector does not explicitly select "never" (an
adjacent `--color never` pair or a `--color=never` token); the color
flag the synthesizer itself would add plays no part in the decision. -/
theorem C4_amended_probe_gate :
    ∀ (args : List String) (stdout_isatty : Bool),
      which_pygmentize_attempted args stdout_isatty = true
        ↔ stdout_isatty = true
          ∧ ¬((∃ p ∈ args.zip args.tail, p.1 = "--color" ∧ p.2 = "never")
              ∨ "--color=never" ∈ args) := by
  intro args tty
  cases tty with
  | false => simp [which_pygmentize_attempted]
  | true =>
    simp [which_pygmentize_attempted, color_never, List.any_eq_true, not_or]
    constructor
    · rintro ⟨h1, h2⟩
      exact ⟨fun hmem => h1 "--color" "never" hmem rfl rfl,
        fun hmem2 => h2 _ hmem2 rfl⟩
    · rintro ⟨h1, h2⟩
      refine ⟨?_, fun x hx hxe => h2 (hxe ▸ hx)⟩
      intro a b hmem ha hb
      subst ha
      subst hb
      exact h1 hmem

/-- Claim C7: the program exits with 1 on any I/O failure (an `Err`
result reaching `main`, in particular a failure of `cmd.status()` inside
`run`), with 1 when the final stage terminates without a reportable
numeric exit code, and otherwise with the exit code of the final stage
unchanged. -/
theorem C7_exit_code_propagation :
    (∀ e : Unit, main_exit (Except.error e) = 1)
      ∧ (∀ e : Unit, main_exit (run (Except.error e)) = 1)
      ∧ main_exit (run (Except.ok none)) = 1
      ∧ (∀ code : Int, main_exit (run (Except.ok (some code))) = code) := by
  exact ⟨fun _ => rfl, fun _ => rfl, rfl, fun _ => rfl⟩

/-- Claim C9: the toolchain prober returns `false` whenever spawning the
version query fails or its stdout is not valid UTF-8, and returns `true`
exactly when the decoded version string starts with `cargo 1` and does
not contain `nightly`. -/
theorem C9_definitely_not_nightly_spec :
    definitely_not_nightly none = false
      ∧ definitely_not_nightly (some none) = false
      ∧ (∀ version : String,
          definitely_not_nightly (some (some version)) = true
            ↔ (starts_with version "cargo 1" = true
                ∧ contains_str version "nightly" = false)) := by
  refine ⟨rfl, rfl, fun version => ?_⟩
  simp [definitely_not_nightly, Bool.and_eq_true, Bool.not_eq_true']

/-- Claim C5: whenever the last user token before the `--` separator (or
the last token overall if there is no separator) is exactly `--test`,
the synthesized list carries exactly one extra token `test`, immediately
after the copied user tokens and before the synthesized `--`; the only
tokens between it and the separator come from color synthesis and are
never equal to the injected name.  The analogous statement holds for
`--example` and `example`. -/
theorem C5_default_target_injection (it : List String)
    (outfile : Option String) (tty : Bool) (t d : String)
    (hd : (t = "--test" ∧ d = "test") ∨ (t = "--example" ∧ d = "example"))
    (h : ((it.drop 2).takeWhile (fun a => a != "--")).getLast? = some t) :
    ∃ after,
      wrap_args it outfile tty
        = ("rustc" :: (it.drop 2).takeWhile (fun a => a != "--"))
            ++ d :: (if ((it.drop 2).takeWhile (fun a => a != "--")).any
                  (fun a => starts_with a "--color")
                then ([] : List String)
                else [if tty then "--color=always" else "--color=never"])
            ++ "--" :: after
        ∧ d ∉ (if ((it.drop 2).takeWhile (fun a => a != "--")).any
              (fun a => starts_with a "--color")
            then ([] : List String)
            else [if tty then "--color=always" else "--color=never"]) := by
  refine ⟨(match outfile with | some path => ["-o", path] | none => [])
      ++ ["-Zunstable-options", "--pretty=expanded"]
      ++ ((it.drop 2).dropWhile (fun a => a != "--")).drop 1, ?_, ?_⟩
  · rw [wrap_args_eq]
    rcases hd with ⟨ht, hdd⟩ | ⟨ht, hdd⟩ <;> subst ht <;> subst hdd
    · have h1 : last_token_is ((it.drop 2).takeWhile (fun a => a != "--"))
          false "--test" = true := by
        rw [last_token_is_of_getLast? _ _ _ _ h]
        decide
      have h2 : last_token_is ((it.drop 2).takeWhile (fun a => a != "--"))
          false "--example" = false := by
        rw [last_token_is_of_getLast? _ _ _ _ h]
        decide
      simp [h1, h2, List.append_assoc]
    · have h1 : last_token_is ((it.drop 2).takeWhile (fun a => a != "--"))
          false "--test" = false := by
        rw [last_token_is_of_getLast? _ _ _ _ h]
        decide
      have h2 : last_token_is ((it.drop 2).takeWhile (fun a => a != "--"))
          false "--example" = true := by
        rw [last_token_is_of_getLast? _ _ _ _ h]
        decide
      simp [h1, h2, List.append_assoc]
  · rcases hd with ⟨ht, hdd⟩ | ⟨ht, hdd⟩ <;> subst hdd <;>
      cases ((it.drop 2).takeWhile (fun a => a != "--")).any
          (fun a => starts_with a "--color") <;>
        cases tty <;> simp

theorem takeWhile_append_of_all {α : Type} (p : α → Bool) (l₁ l₂ : List α)
    (h : ∀ x ∈ l₁, p x = true) :
    (l₁ ++ l₂).takeWhile p = l₁ ++ l₂.takeWhile p := by
  induction l₁ with
  | nil => simp
  | cons a m ih =>
    simp only [List.cons_append, List.takeWhile_cons,
      h a (List.mem_cons_self a m), if_true]
    rw [ih (fun x hx => h x (List.mem_cons_of_mem a hx))]

theorem filter_eq_nil_of_any_eq_false {α : Type} (p : α → Bool)
    (l : List α) (h : l.any p = false) : l.filter p = [] := by
  induction l with
  | nil => rfl
  | cons a m ih =>
    simp only [List.any_cons, Bool.or_eq_false_iff] at h
    simp [List.filter_cons, h.1, ih h.2]

/-- The synthesized argument list up to (not including) its first `--`
token, when the copied tokens and the injected parts are all `--`-free. -/
theorem takeWhile_pre_region (tw B C D rest : List String)
    (htw : ∀ x ∈ tw, (x != "--") = true)
    (hB : ∀ x ∈ B, (x != "--") = true)
    (hC : ∀ x ∈ C, (x != "--") = true)
    (hD : ∀ x ∈ D, (x != "--") = true) :
    ("rustc" :: (tw ++ (B ++ (C ++ (D ++ ("--" :: rest)))))).takeWhile
        (fun a => a != "--")
      = "rustc" :: (tw ++ (B ++ (C ++ D))) := by
  have hsep : ("--" :: rest).takeWhile (fun a => a != "--") = [] := rfl
  have hstep :
      ("rustc" :: (tw ++ (B ++ (C ++ (D ++ ("--" :: rest)))))).takeWhile
          (fun a => a != "--")
        = "rustc" :: ((tw ++ (B ++ (C ++ (D ++ ("--" :: rest))))).takeWhile
            (fun a => a != "--")) := rfl
  rw [hstep, takeWhile_append_of_all _ _ _ htw,
    takeWhile_append_of_all _ _ _ hB, takeWhile_append_of_all _ _ _ hC,
    takeWhile_append_of_all _ _ _ hD, hsep, List.append_nil]

/-- Claim C6: in the region of the synthesized list before the
synthesized `--` separator, the tokens with the `--color` prefix are
exactly the color tokens of the user when the user supplied any
(idempotence of explicit user choice), and otherwise exactly one
synthesized flag whose value is `always` when stderr is a terminal and
`never` otherwise. -/
theorem C6_color_flag_synthesis :
    ∀ (it : List String) (outfile : Option String) (tty : Bool),
      ((wrap_args it outfile tty).takeWhile (fun a => a != "--")).filter
          (fun a => starts_with a "--color")
        = if ((it.drop 2).takeWhile (fun a => a != "--")).any
              (fun a => starts_with a "--color")
          then ((it.drop 2).takeWhile (fun a => a != "--")).filter
              (fun a => starts_with a "--color")
          else [if tty then "--color=always" else "--color=never"] := by
  intro it outfile tty
  rw [wrap_args_eq]
  simp only [List.append_assoc, List.cons_append, List.singleton_append]
  rw [takeWhile_pre_region]
  · have hqr : starts_with "rustc" "--color" = false := by decide
    have hqt : starts_with "test" "--color" = false := by decide
    have hqe : starts_with "example" "--color" = false := by decide
    have hqa : starts_with "--color=always" "--color" = true := by decide
    have hqn : starts_with "--color=never" "--color" = true := by decide
    cases h3 : ((it.drop 2).takeWhile (fun a => a != "--")).any
        (fun a => starts_with a "--color") with
    | true =>
      cases last_token_is ((it.drop 2).takeWhile (fun a => a != "--"))
          false "--test" <;>
        cases last_token_is ((it.drop 2).takeWhile (fun a => a != "--"))
            false "--example" <;>
          simp [List.filter_cons, List.filter_append, hqr, hqt, hqe, h3]
    | false =>
      have hfil : ((it.drop 2).takeWhile (fun a => a != "--")).filter
          (fun a => starts_with a "--color") = [] :=
        filter_eq_nil_of_any_eq_false _ _ h3
      cases last_token_is ((it.drop 2).takeWhile (fun a => a != "--"))
          false "--test" <;>
        cases last_token_is ((it.drop 2).takeWhile (fun a => a != "--"))
            false "--example" <;>
          cases tty <;>
            simp [List.filter_cons, List.filter_append, hqr, hqt, hqe,
              hqa, hqn, h3, hfil]
  · exact fun x hx => List.mem_takeWhile_imp (p := fun a => a != "--") hx
  · intro x hx
    cases last_token_is ((it.drop 2).takeWhile (fun a => a != "--"))
        false "--test" <;> simp_all
  · intro x hx
    cases last_token_is ((it.drop 2).takeWhile (fun a => a != "--"))
        false "--example" <;> simp_all
  · intro x hx
    cases ((it.drop 2).takeWhile (fun a => a != "--")).any
        (fun a => starts_with a "--color") <;> cases tty <;>
      simp_all

/-- Witness for C5 at the concrete input `cargo expand --test` (the
argument vector ends in the `--test` flag): the default target name
`test` is injected right after the user tokens, before the synthesized
color flag and `--`. -/
theorem C5_default_target_injection_witness :
    ∃ after,
      wrap_args ["cargo-expand", "expand", "--test"] none false
        = ("rustc" :: ["--test"]) ++ "test" :: ["--color=never"]
            ++ "--" :: after
        ∧ "test" ∉ ["--color=never"] :=
  C5_default_target_injection ["cargo-expand", "expand", "--test"] none false
    "--test" "test" (Or.inl ⟨rfl, rfl⟩) (by decide)

/-- Claim C8: `ignore_cargo_err` says "ignore" for every line that is
blank after trimming whitespace and for every line containing one of the
four blacklisted benign advisory substrings, and says "do not ignore"
for every other non-blank line, in particular for
`error[E0432]: unresolved import`. -/
theorem C8_ignore_cargo_err_classification :
    (∀ line : String, trim_is_empty line = true →
        ignore_cargo_err line = true)
      ∧ (∀ line s : String, s ∈ blacklist → contains_str line s = true →
          ignore_cargo_err line = true)
      ∧ (∀ line : String, trim_is_empty line = false →
          (∀ s ∈ blacklist, contains_str line s = false) →
          ignore_cargo_err line = false)
      ∧ ignore_cargo_err "error[E0432]: unresolved import" = false := by
  refine ⟨?_, ?_, ?_, by decide⟩
  · intro line h
    simp [ignore_cargo_err, h]
  · intro line s hs hc
    cases ht : trim_is_empty line with
    | true => simp [ignore_cargo_err, ht]
    | false =>
      have ha : blacklist.any (fun s => contains_str line s) = true :=
        List.any_eq_true.mpr ⟨s, hs, hc⟩
      simp [ignore_cargo_err, ht, ha]
  · intro line ht hnone
    have ha : blacklist.any (fun s => contains_str line s) = false := by
      cases hh : blacklist.any (fun s => contains_str line s) with
      | false => rfl
      | true =>
        obtain ⟨s, hs, hc⟩ := List.any_eq_true.mp hh
        rw [hnone s hs] at hc
        cases hc
    simp [ignore_cargo_err, ht, ha]

/-- Witness for C8: one blank line, one line containing a blacklisted
advisory, and one ordinary diagnostic line, each classified through the
theorem. -/
theorem C8_ignore_cargo_err_classification_witness :
    ignore_cargo_err " \t " = true
      ∧ ignore_cargo_err
          "warning: ignoring --out-dir flag due to -o flag. (details)" = true
      ∧ ignore_cargo_err "warning: unused variable: x" = false :=
  ⟨C8_ignore_cargo_err_classification.1 " \t " (by decide),
   C8_ignore_cargo_err_classification.2.1
     "warning: ignoring --out-dir flag due to -o flag. (details)"
     "ignoring --out-dir flag due to -o flag." (by decide) (by decide),
   C8_ignore_cargo_err_classification.2.2.1 "warning: unused variable: x"
     (by decide) (by decide)⟩

/-- Claim C10: the diagnostic-filter loop exits with code 0 on every
stream, and when a read fails mid-stream the loop stops at that read:
only the non-ignored lines read before the failure are forwarded,
nothing after the failure is, and the exit code is still 0. -/
theorem C10_filter_err_exit_zero_on_read_error :
    (∀ (ig : String → Bool) (reads : List (Except Unit String)),
        (filter_err ig reads).2 = 0)
      ∧ (∀ (ig : String → Bool) (pre post : List (Except Unit String)),
          (∀ r ∈ pre, ∃ s, r = Except.ok s ∧ s.isEmpty = false) →
          filter_err ig (pre ++ Except.error () :: post)
            = (pre.filterMap (fun r =>
                match r with
                | Except.ok s => if ig s then none else some s
                | Except.error _ => none), 0)) := by
  constructor
  · intro ig reads
    induction reads with
    | nil => rfl
    | cons r rest ih =>
      cases r with
      | error e => rfl
      | ok line =>
        cases h : line.isEmpty with
        | true => simp [filter_err, h]
        | false => simp [filter_err, h, ih]
  · intro ig pre post
    induction pre with
    | nil => intro _; rfl
    | cons r rest ih =>
      intro hpre
      obtain ⟨s, hr, hs⟩ := hpre r (List.mem_cons_self r rest)
      subst hr
      have ihr := ih (fun x hx => hpre x (List.mem_cons_of_mem _ hx))
      cases hig : ig s with
      | true => simp [filter_err, hs, hig, ihr, List.filterMap_cons]
      | false => simp [filter_err, hs, hig, ihr, List.filterMap_cons]

/-- Witness for C10: with an ignore-nothing predicate, a successful read
of one line followed by a failed read and another available line: only
the first line is forwarded and the exit code is 0. -/
theorem C10_filter_err_exit_zero_on_read_error_witness :
    filter_err (fun _ => false)
        [Except.ok "line one\n", Except.error (), Except.ok "line two\n"]
      = (["line one\n"], 0) := by
  have h := C10_filter_err_exit_zero_on_read_error.2 (fun _ => false)
      [Except.ok "line one\n"] [Except.ok "line two\n"]
      (by
        intro r hr
        rw [List.mem_singleton] at hr
        exact ⟨"line one\n", hr, rfl⟩)
  simpa using h
